import Mathlib

/-!
Verification development for the two XML-to-markdown converter scripts
`xml_to_appian_recordtype_md.py` (embedded below under namespace `V1`) and
`map_xml_to_appian_recordtype_md.py` (namespace `V2`).  Shared code of the two
scripts is embedded once.  Python strings are modelled as Lean `String`
(lists of characters); the ASCII-only character classes used by the scripts
(`[^A-Za-z0-9]`, `str.strip()`, `str.lower()`) are modelled by explicit
ASCII predicates, which is faithful on every code path the scripts exercise
because every non-ASCII character is in the "replaced" class of the regexes
before any case conversion happens.
-/

set_option maxRecDepth 10000

namespace AppianMd

/-- ASCII alphanumeric test, the character class `[A-Za-z0-9]` of the regexes. -/
def isAlnumA (c : Char) : Bool :=
  (decide (65 ≤ c.toNat) && decide (c.toNat ≤ 90)) ||
  (decide (97 ≤ c.toNat) && decide (c.toNat ≤ 122)) ||
  (decide (48 ≤ c.toNat) && decide (c.toNat ≤ 57))

/-- The whitespace class stripped and split on by Python `str.strip()` /
`str.split()` (ASCII part; non-ASCII whitespace is already non-alphanumeric
and therefore never survives to a point where the difference is observable). -/
def pyIsSpace (c : Char) : Bool :=
  (decide (c.toNat = 32)) || (decide (c.toNat = 9)) || (decide (c.toNat = 10)) ||
  (decide (c.toNat = 13)) || (decide (c.toNat = 11)) || (decide (c.toNat = 12))

/-- Python `str.lower()` on one character (ASCII). -/
def lowerChar (c : Char) : Char :=
  if 65 ≤ c.toNat ∧ c.toNat ≤ 90 then Char.ofNat (c.toNat + 32) else c

/-- `re.sub(r"[^A-Za-z0-9]+", sep, _)` as a single pass: every maximal run of
non-alphanumeric characters becomes the single character `sep`.  The flag
records whether we are currently inside such a run (its separator already
emitted). -/
def sepSub (sep : Char) : Bool → List Char → List Char
  | _, [] => []
  | b, c :: rest =>
    if isAlnumA c then c :: sepSub sep false rest
    else if b then sepSub sep true rest
    else sep :: sepSub sep true rest

/-- Remove the maximal trailing run of characters satisfying `p`. -/
def stripTrailP (p : Char → Bool) : List Char → List Char
  | [] => []
  | c :: rest =>
    match stripTrailP p rest with
    | [] => if p c then [] else [c]
    | r => c :: r

/-- Python `str.strip(chars)`: drop the `p`-characters at both ends. -/
def pyStripP (p : Char → Bool) (l : List Char) : List Char :=
  stripTrailP p (l.dropWhile p)

/-- Python `str.strip()` (no argument: whitespace) on a `String`. -/
def pyStripWs (s : String) : String :=
  String.mk (pyStripP pyIsSpace s.data)

/-- Prepend a character to the first word of a word list (starting a new
word when there is none). -/
def consHead (c : Char) : List (List Char) → List (List Char)
  | [] => [[c]]
  | w :: ws => (c :: w) :: ws

/-- The maximal runs of `p`-characters of a list, in order; the non-`p`
characters separate the runs and are discarded.  `wordsP pyNotSpace` is
Python `str.split()`. -/
def wordsP (p : Char → Bool) : List Char → List (List Char)
  | [] => []
  | c :: rest =>
    if p c then
      match rest with
      | [] => [[c]]
      | d :: _ => if p d then consHead c (wordsP p rest) else [c] :: wordsP p rest
    else wordsP p rest

/-- Python `sep.join(parts)`. -/
def joinSep (sep : List Char) : List (List Char) → List Char
  | [] => []
  | w :: ws =>
    match ws with
    | [] => w
    | _ :: _ => w ++ sep ++ joinSep sep ws

/-- `pat` is a prefix of the second list. -/
def isPrefixL : List Char → List Char → Bool
  | [], _ => true
  | _ :: _, [] => false
  | c :: cs, d :: ds => (c == d) && isPrefixL cs ds

/-- `pat` occurs as a contiguous sublist. -/
def containsSub : List Char → List Char → Bool
  | [], pat => isPrefixL pat []
  | c :: rest, pat => isPrefixL pat (c :: rest) || containsSub rest pat

/-- Python `pat in hay` for strings. -/
def strContains (hay pat : String) : Bool := containsSub hay.data pat.data

/-- Python truthiness of a value that is either a string or `None`. -/
def truthy : Option String → Bool
  | none => false
  | some s => decide (s ≠ "")

/-- Python `x or y` where both operands are string-or-`None`. -/
def pyOrOpt (x y : Option String) : Option String := if truthy x then x else y

/-- Python `x or ""` where `x` is string-or-`None`. -/
def pyOrEmpty (x : Option String) : String := if truthy x then x.getD "" else ""

/-- Python `x or y` on strings. -/
def pyOrS (x y : String) : String := if x ≠ "" then x else y

/-- The string an f-string interpolates for a value that is either a string
or `None` (Python renders `None` as the text `None`). -/
def pyStr : Option String → String
  | none => "None"
  | some s => s

/-- `TYPE_MAP` of both scripts. -/
def TYPE_MAP : List (String × String) :=
  [("Int", "Integer"), ("Integer", "Integer"), ("Long", "Integer"),
   ("Text", "Text"), ("Boolean", "Boolean"), ("Date", "Date"),
   ("Datetime", "Datetime"), ("User", "User"),
   ("CollaborationDocument", "CollaborationDocument"),
   ("Document", "Document"), ("Guid", "Text")]

/-- `REL_MAP` of both scripts. -/
def REL_MAP : List (String × String) :=
  [("ONE_TO_MANY", "one-to-many"), ("MANY_TO_ONE", "many-to-one"),
   ("ONE_TO_ONE", "one-to-one"), ("MANY_TO_MANY", "many-to-many")]

/-- `friendly_type` of both scripts: strip, drop a brace-delimited prefix,
look up in `TYPE_MAP` with pass-through default. -/
def friendly_type (type_text : String) : String :=
  let t := pyStripWs type_text
  let t2 := if isPrefixL ['\x7b'] t.data && t.data.contains '\x7d'
            then String.mk ((t.data.dropWhile (fun c => !(c == '\x7d'))).drop 1)
            else t
  match List.lookup t2 TYPE_MAP with
  | some v => v
  | none => t2

/-- `REL_MAP.get(raw, raw.lower().replace("_", "-"))`, the relationship-kind
normalisation applied by `parse_recordtype` in both scripts. -/
def relKindOf (raw : String) : String :=
  match List.lookup raw REL_MAP with
  | some v => v
  | none => String.mk ((raw.data.map lowerChar).map (fun c => if c == '_' then '-' else c))

namespace V1

/-- `slug` of `xml_to_appian_recordtype_md.py`:
`re.sub(r"[^A-Za-z0-9]+", "_", name).strip("_").lower()`. -/
def slug (name : String) : String :=
  String.mk ((pyStripP (fun c => c == '_') (sepSub '_' false name.data)).map lowerChar)

end V1

namespace V2

/-- `to_snake_case` of `map_xml_to_appian_recordtype_md.py`: strip, replace
non-alphanumeric runs by spaces, split, lowercase the parts, join with
underscores, with the fixed fallback `record_type` when no part remains. -/
def to_snake_case (s : String) : String :=
  let s1 := pyStripP pyIsSpace s.data
  let s2 := sepSub ' ' false s1
  let parts := ((wordsP (fun c => !pyIsSpace c) s2).filter (fun w => !w.isEmpty)).map
    (List.map lowerChar)
  if parts.isEmpty then "record_type" else String.mk (joinSep ['_'] parts)

end V2

/-- The composite used at the only call sites of `slug` in
`xml_to_appian_recordtype_md.py`: `slug(name) or "record_type"`. -/
def slugOrDefault (name : String) : String := pyOrS (V1.slug name) "record_type"

/-! ## The XML document model

An `ElementTree` element: tag (namespaced tags carry the `\x7bns\x7dlocal`
spelling used by `ElementTree`), attributes, text, children. -/

inductive XElem : Type where
  | mk : String → List (String × String) → Option String → List XElem → XElem

def XElem.tag : XElem → String
  | .mk t _ _ _ => t

def XElem.attrs : XElem → List (String × String)
  | .mk _ a _ _ => a

def XElem.text : XElem → Option String
  | .mk _ _ x _ => x

def XElem.children : XElem → List XElem
  | .mk _ _ _ cs => cs

mutual

/-- An element together with all its descendants, in document (preorder)
order. -/
def XElem.withDesc : XElem → List XElem
  | .mk t a x cs => .mk t a x cs :: descList cs

/-- All elements of a forest together with their descendants, in document
(preorder) order. -/
def descList : List XElem → List XElem
  | [] => []
  | e :: rest => e.withDesc ++ descList rest

end

/-- `e.findall(".//tag")`: every proper descendant with the given tag, in
document order. -/
def findAllDesc (e : XElem) (tag : String) : List XElem :=
  (descList e.children).filter (fun c => c.tag == tag)

/-- `e.find("tag")`: first direct child with the given tag. -/
def findChild (e : XElem) (tag : String) : Option XElem :=
  e.children.find? (fun c => c.tag == tag)

/-- `e.findtext(tag, default=dflt)`: text of the first matching direct child
(the empty string when that element has no text), `dflt` when absent. -/
def findtextD (e : XElem) (tag : String) (dflt : String) : String :=
  match findChild e tag with
  | none => dflt
  | some c => c.text.getD ""

/-- `e.attrib.get(k)`. -/
def attrGet (e : XElem) (k : String) : Option String :=
  (e.attrs.find? (fun p => p.fst == k)).map Prod.snd

/-- The Appian namespace `A_NS` of both scripts. -/
def A_NS : String := "http://www.appian.com/ae/types/2009"

/-- The `ElementTree` spelling of a tag in the Appian namespace. -/
def nsTag (n : String) : String := "\x7b" ++ A_NS ++ "\x7d" ++ n

/-! ## The canonical record -/

structure RTField where
  name : String
  uuid : String
  type : String

structure RTRel where
  name : String
  uuid : String
  type : String

structure RTAction where
  name : String
  uuid : String
  key : String

/-- The dictionary returned by `parse_recordtype`.  In
`xml_to_appian_recordtype_md.py` the entity identifier can be Python `None`
(there is no `or ""` on its line 58), hence `Option String`;
`map_xml_to_appian_recordtype_md.py` always produces a string (`some _`). -/
structure RecordTypeRec where
  uuid : Option String
  name : String
  description : String
  fields : List RTField
  relationships : List RTRel
  actions : List RTAction

/-- One iteration of the field loop of `parse_recordtype` (both scripts):
`some` exactly when the stripped name and stripped uuid are both non-empty. -/
def mkField (f : XElem) : Option RTField :=
  let fname := pyStripWs (findtextD f "fieldName" "")
  let fuuid := pyStripWs (findtextD f "uuid" "")
  let ftype := friendly_type (findtextD f "type" "")
  if fname ≠ "" ∧ fuuid ≠ "" then some ⟨fname, fuuid, ftype⟩ else none

/-- One iteration of the relationship loop of `parse_recordtype` (both
scripts). -/
def mkRel (rcfg : XElem) : Option RTRel :=
  let ruuid := pyStripWs (findtextD rcfg "uuid" "")
  let rname := pyStripWs (findtextD rcfg "relationshipName" "")
  let raw := pyStripWs (findtextD rcfg "relationshipType" "")
  let rtype := relKindOf raw
  if ruuid ≠ "" ∧ rname ≠ "" then some ⟨rname, ruuid, rtype⟩ else none

/-- One iteration of the action loop of `parse_recordtype` (both scripts):
`title = ((findtext(staticTitle) or "") or (findtext(staticTitleString) or "")).strip()`,
`name = title or akey`. -/
def mkAction (ac : XElem) : Option RTAction :=
  let auuid := pyOrEmpty (attrGet ac (nsTag "uuid"))
  let akey := pyStripWs (findtextD ac (nsTag "referenceKey") "")
  let title := pyStripWs
    (pyOrS (findtextD ac (nsTag "staticTitle") "") (findtextD ac (nsTag "staticTitleString") ""))
  if auuid ≠ "" ∧ akey ≠ "" then some ⟨pyOrS title akey, auuid, akey⟩ else none

/-- `desc` extraction of `parse_recordtype` (both scripts). -/
def extractDesc (rt : XElem) : String :=
  match findChild rt (nsTag "description") with
  | none => ""
  | some el => pyStripWs (el.text.getD "")

def fieldElems (rt : XElem) : List XElem := findAllDesc rt "field"

def relElems (rt : XElem) : List XElem := findAllDesc rt (nsTag "recordRelationshipCfg")

/-- `act_cfgs`: the two action-element kinds, first kind's full match list
then the second kind's. -/
def actionElems (rt : XElem) : List XElem :=
  findAllDesc rt (nsTag "recordListActionCfg") ++ findAllDesc rt (nsTag "relatedActionCfg")

def extractFields (rt : XElem) : List RTField := (fieldElems rt).filterMap mkField

def extractRels (rt : XElem) : List RTRel := (relElems rt).filterMap mkRel

def extractActions (rt : XElem) : List RTAction := (actionElems rt).filterMap mkAction

namespace V1

/-- `parse_recordtype` of `xml_to_appian_recordtype_md.py`, given the parsed
document root.  Note the absence of `or ""` on the uuid line. -/
def parse_recordtype (root : XElem) : Except String RecordTypeRec :=
  match findChild root "recordType" with
  | none => .error "No <recordType> found. Expected an Appian recordTypeHaul XML."
  | some rt =>
    .ok { uuid := pyOrOpt (attrGet rt (nsTag "uuid")) (attrGet rt "uuid"),
          name := pyOrEmpty (attrGet rt "name"),
          description := extractDesc rt,
          fields := extractFields rt,
          relationships := extractRels rt,
          actions := extractActions rt }

end V1

namespace V2

/-- `parse_recordtype` of `map_xml_to_appian_recordtype_md.py`:
identical except that the uuid line ends in `or ""`. -/
def parse_recordtype (xmlPath : String) (root : XElem) : Except String RecordTypeRec :=
  match findChild root "recordType" with
  | none => .error ("No <recordType> found in " ++ xmlPath)
  | some rt =>
    .ok { uuid := some (pyOrEmpty (pyOrOpt (attrGet rt (nsTag "uuid")) (attrGet rt "uuid"))),
          name := pyOrEmpty (attrGet rt "name"),
          description := extractDesc rt,
          fields := extractFields rt,
          relationships := extractRels rt,
          actions := extractActions rt }

end V2

/-! ## Rendering (identical in the two scripts up to the tag computation) -/

/-- The entity self-reference f-string `rt_ref` of `render_markdown`. -/
def entityRef (rt : RecordTypeRec) : String :=
  "\x27recordType!\x7b" ++ pyStr rt.uuid ++ "\x7d" ++ rt.name ++ "\x27"

/-- The field-reference f-string `fref` of `render_markdown`. -/
def fieldRef (rt : RecordTypeRec) (cuuid cname : String) : String :=
  "\x27recordType!\x7b" ++ pyStr rt.uuid ++ "\x7d" ++ rt.name ++ ".fields.\x7b" ++
    cuuid ++ "\x7d" ++ cname ++ "\x27"

/-- The relationship-reference f-string `rref` of `render_markdown`. -/
def relRef (rt : RecordTypeRec) (cuuid cname : String) : String :=
  "\x27recordType!\x7b" ++ pyStr rt.uuid ++ "\x7d" ++ rt.name ++ ".relationships.\x7b" ++
    cuuid ++ "\x7d" ++ cname ++ "\x27"

/-- The action-reference f-string `aref` of `render_markdown`. -/
def actionRef (rt : RecordTypeRec) (cuuid cname : String) : String :=
  "\x27recordType!\x7b" ++ pyStr rt.uuid ++ "\x7d" ++ rt.name ++ ".actions.\x7b" ++
    cuuid ++ "\x7d" ++ cname ++ "\x27"

/-- A data row of the Fields table. -/
def fieldRow (rt : RecordTypeRec) (f : RTField) : String :=
  "| " ++ f.name ++ " | " ++ f.type ++ " | `" ++ fieldRef rt f.uuid f.name ++ "` |"

/-- A data row of the Relationships table. -/
def relRow (rt : RecordTypeRec) (r : RTRel) : String :=
  "| " ++ r.name ++ " | " ++ r.type ++ " | `" ++ relRef rt r.uuid r.name ++ "` |"

/-- A data row of the Record Actions table. -/
def actionRow (rt : RecordTypeRec) (a : RTAction) : String :=
  "| " ++ a.name ++ " | `" ++ actionRef rt a.uuid a.key ++ "` |"

/-- Whether an `Except` result is a success. -/
def exceptIsOk {ε α : Type} : Except ε α → Bool
  | .ok _ => true
  | .error _ => false

/-- The `out` list of `render_markdown`, shared by the two scripts; `tag` is
the only point at which they differ. -/
def render_lines (tag : String) (rt : RecordTypeRec) (doc_title : String) : List String :=
  ["# " ++ doc_title ++ "\n",
   "This document provides the specific record type definitions for use when creating SAIL expressions.\n",
   "<available_record_types>",
   "## Available Record Types\n",
   "<" ++ tag ++ ">",
   "### " ++ rt.name,
   "**Record Type**: `" ++ entityRef rt ++ "`\n",
   "**Description**: ",
   pyOrS rt.description "Not provided.",
   "\n**Fields**:\n",
   "| **Field Name** | **Data Type** | **Field Reference** |",
   "|----------------|---------------|---------------------|"]
  ++ rt.fields.map (fieldRow rt)
  ++ ["\n**Relationships**:\n"]
  ++ (if rt.relationships.isEmpty then ["Not available\n"]
      else ["| **Relationship Name** | **Type** | **Relationship Reference** |",
            "|----------------------|----------|---------------------------|"]
           ++ rt.relationships.map (relRow rt)
           ++ ["\n**Note**: Access any field from related records using: `[relationshipReference].fields.\x7bfieldUuid\x7dfieldName`\n"])
  ++ ["**User Filters**:\n\nNot available\n", "**Record Actions**:\n"]
  ++ (if rt.actions.isEmpty then ["\nNot available\n"]
      else ["\n| **Action Name** | **Action Reference** |",
            "|----------------|---------------------|"]
           ++ rt.actions.map (actionRow rt) ++ [""])
  ++ ["</" ++ tag ++ ">\n", "</available_record_types>\n"]

namespace V1

/-- `render_markdown` of `xml_to_appian_recordtype_md.py`: its tag is
`slug(rt["name"]) or "record_type"`. -/
def render_markdown (rt : RecordTypeRec) (doc_title : String) : String :=
  String.intercalate "\n" (render_lines (pyOrS (slug rt.name) "record_type") rt doc_title)

end V1

namespace V2

/-- `render_markdown` of `map_xml_to_appian_recordtype_md.py`: its tag is
`to_snake_case(rt["name"])`. -/
def render_markdown (rt : RecordTypeRec) (doc_title : String) : String :=
  String.intercalate "\n" (render_lines (to_snake_case rt.name) rt doc_title)

end V2

/-! ## Auxiliary predicates and spec-side definitions -/

/-- A lowercase ASCII letter, an ASCII digit, or the underscore separator:
the character alphabet the specification allows for slugs. -/
def isLowerDigitSep (c : Char) : Bool :=
  (decide (97 ≤ c.toNat) && decide (c.toNat ≤ 122)) ||
  (decide (48 ≤ c.toNat) && decide (c.toNat ≤ 57)) || (c == '_')

/-- Modelled from the spec, for comparison with the code: the action
display-name selection as the specification words it — the stripped text of
the first title sub-element when that stripped text is non-empty; the second
title considered only when the first is absent or the empty string; the
reference key otherwise. -/
def specActionDisplayName (t1 t2 key : String) : String :=
  if pyStripWs t1 ≠ "" then pyStripWs t1
  else if t1 = "" then (if pyStripWs t2 ≠ "" then pyStripWs t2 else key)
  else key

/-! ## Concrete scenario documents used by witnesses and counterexamples -/

/-- Scenario A of the spec: the `recordType` element with identifier `123`,
name `Invoice`, no description, one field `Total`,`f1`,`Int`. -/
def c2rt : XElem :=
  .mk "recordType" [(nsTag "uuid", "123"), ("name", "Invoice")] none
    [.mk "field" [] none
       [.mk "fieldName" [] (some "Total") [],
        .mk "uuid" [] (some "f1") [],
        .mk "type" [] (some "Int") []]]

def c2doc : XElem := .mk "recordTypeHaul" [] none [c2rt]

/-- The canonical record `parse_recordtype` extracts from `c2doc`. -/
def c2rec : RecordTypeRec :=
  { uuid := some "123", name := "Invoice", description := "",
    fields := [⟨"Total", "f1", "Integer"⟩], relationships := [], actions := [] }

def c2title : String := "Invoice Record Type Context Reference"

def c2md : String := V1.render_markdown c2rec c2title

/-- A document whose `recordType` element has no attributes at all. -/
def c4rt : XElem := .mk "recordType" [] none []

def c4doc : XElem := .mk "recordTypeHaul" [] none [c4rt]

def c4rec : RecordTypeRec :=
  { uuid := none, name := "", description := "", fields := [],
    relationships := [], actions := [] }

/-- A document whose `recordType` element carries both uuid attributes
present but empty. -/
def c4rtE : XElem := .mk "recordType" [(nsTag "uuid", ""), ("uuid", "")] none []

def c4docE : XElem := .mk "recordTypeHaul" [] none [c4rtE]

def c4recE : RecordTypeRec :=
  { uuid := some "", name := "", description := "", fields := [],
    relationships := [], actions := [] }

/-- A document with one complete field, one field lacking its uuid, one
relationship lacking its name and one complete action. -/
def c5rt : XElem :=
  .mk "recordType" [(nsTag "uuid", "u0"), ("name", "Case")] none
    [.mk "field" [] none
       [.mk "fieldName" [] (some "Id") [], .mk "uuid" [] (some "f1") []],
     .mk "field" [] none [.mk "fieldName" [] (some "Ghost") []],
     .mk (nsTag "recordRelationshipCfg") [] none [.mk "uuid" [] (some "r1") []],
     .mk (nsTag "recordListActionCfg") [(nsTag "uuid", "a1")] none
       [.mk (nsTag "referenceKey") [] (some "open") []]]

def c5doc : XElem := .mk "recordTypeHaul" [] none [c5rt]

def c5rec : RecordTypeRec :=
  { uuid := some "u0", name := "Case", description := "",
    fields := [⟨"Id", "f1", ""⟩], relationships := [],
    actions := [⟨"open", "a1", "open"⟩] }

/-- Scenario D of the spec: an action element whose title text is empty and
whose reference key is `viewDetails`. -/
def c6ac : XElem :=
  .mk (nsTag "recordListActionCfg") [(nsTag "uuid", "u1")] none
    [.mk (nsTag "referenceKey") [] (some "viewDetails") [],
     .mk (nsTag "staticTitle") [] (some "") []]

def c6act : RTAction := ⟨"viewDetails", "u1", "viewDetails"⟩

/-- A document containing a `recordType` element (with identity but no
description element) — extraction must succeed with the defaults. -/
def c9rt : XElem := .mk "recordType" [(nsTag "uuid", "u9"), ("name", "N")] none []

def c9doc : XElem := .mk "recordTypeHaul" [] none [c9rt]

def c9rec : RecordTypeRec :=
  { uuid := some "u9", name := "N", description := "", fields := [],
    relationships := [], actions := [] }

/-! ## Character-level lemmas -/

theorem char_toNat_ofNat_valid {n : Nat} (h : n < 55296) : (Char.ofNat n).toNat = n := by
  rw [Char.ofNat, dif_pos (Or.inl h)]
  rfl

theorem lowerChar_of_upper {c : Char} (h1 : 65 ≤ c.toNat) (h2 : c.toNat ≤ 90) :
    (lowerChar c).toNat = c.toNat + 32 := by
  unfold lowerChar
  rw [if_pos ⟨h1, h2⟩]
  exact char_toNat_ofNat_valid (by omega)

theorem lowerChar_of_not_upper {c : Char} (h : ¬(65 ≤ c.toNat ∧ c.toNat ≤ 90)) :
    lowerChar c = c := by
  unfold lowerChar
  rw [if_neg h]

theorem lowerChar_idem (c : Char) : lowerChar (lowerChar c) = lowerChar c := by
  by_cases h : 65 ≤ c.toNat ∧ c.toNat ≤ 90
  · have ht : (lowerChar c).toNat = c.toNat + 32 := lowerChar_of_upper h.1 h.2
    apply lowerChar_of_not_upper
    rw [ht]
    omega
  · rw [lowerChar_of_not_upper h, lowerChar_of_not_upper h]

theorem isAlnumA_iff {c : Char} :
    isAlnumA c = true ↔
      (65 ≤ c.toNat ∧ c.toNat ≤ 90) ∨ (97 ≤ c.toNat ∧ c.toNat ≤ 122) ∨
      (48 ≤ c.toNat ∧ c.toNat ≤ 57) := by
  simp [isAlnumA, Bool.or_eq_true, Bool.and_eq_true, decide_eq_true_eq, or_assoc]

theorem isAlnumA_lowerChar {c : Char} (h : isAlnumA c = true) :
    isAlnumA (lowerChar c) = true := by
  rw [isAlnumA_iff] at h ⊢
  by_cases hu : 65 ≤ c.toNat ∧ c.toNat ≤ 90
  · have ht := lowerChar_of_upper hu.1 hu.2
    omega
  · rw [lowerChar_of_not_upper hu]
    exact h

theorem isLowerDigitSep_iff {c : Char} :
    isLowerDigitSep c = true ↔
      (97 ≤ c.toNat ∧ c.toNat ≤ 122) ∨ (48 ≤ c.toNat ∧ c.toNat ≤ 57) ∨ c = '_' := by
  simp [isLowerDigitSep, Bool.or_eq_true, Bool.and_eq_true, decide_eq_true_eq,
    beq_iff_eq, or_assoc]

theorem isLowerDigitSep_lowerChar {c : Char} (h : isAlnumA c = true) :
    isLowerDigitSep (lowerChar c) = true := by
  rw [isAlnumA_iff] at h
  rw [isLowerDigitSep_iff]
  by_cases hu : 65 ≤ c.toNat ∧ c.toNat ≤ 90
  · have ht := lowerChar_of_upper hu.1 hu.2
    omega
  · rw [lowerChar_of_not_upper hu]
    omega

theorem isAlnumA_beq_underscore {c : Char} (h : isAlnumA c = true) : (c == '_') = false := by
  rw [beq_eq_false_iff_ne]
  intro he
  rw [he] at h
  exact absurd h (by decide)

theorem isAlnumA_not_space {c : Char} (h : isAlnumA c = true) : pyIsSpace c = false := by
  rw [isAlnumA_iff] at h
  simp only [pyIsSpace, Bool.or_eq_false_iff, decide_eq_false_iff_not]
  omega

theorem space_not_alnumA {c : Char} (h : pyIsSpace c = true) : isAlnumA c = false := by
  simp only [pyIsSpace, Bool.or_eq_true, decide_eq_true_eq] at h
  simp only [isAlnumA, Bool.or_eq_false_iff, Bool.and_eq_false_iff,
    decide_eq_false_iff_not]
  omega

theorem isAlnumA_ne_of_not {sep : Char} {c : Char} (hc : isAlnumA c = true)
    (hsep : isAlnumA sep = false) : (c == sep) = false := by
  rw [beq_eq_false_iff_ne]
  intro he
  rw [he] at hc
  rw [hc] at hsep
  exact Bool.noConfusion hsep

theorem lowerChar_underscore : lowerChar '_' = '_' := by decide

/-! ## Equation lemmas for the recursive helpers -/

theorem sepSub_nil {sep : Char} {b : Bool} : sepSub sep b [] = [] := by
  cases b <;> rfl

theorem sepSub_cons_alnum {sep c : Char} {b : Bool} {l : List Char}
    (h : isAlnumA c = true) : sepSub sep b (c :: l) = c :: sepSub sep false l := by
  cases b <;> simp [sepSub, h]

theorem sepSub_cons_true {sep c : Char} {l : List Char} (h : isAlnumA c = false) :
    sepSub sep true (c :: l) = sepSub sep true l := by
  simp [sepSub, h]

theorem sepSub_cons_false {sep c : Char} {l : List Char} (h : isAlnumA c = false) :
    sepSub sep false (c :: l) = sep :: sepSub sep true l := by
  simp [sepSub, h]

theorem wordsP_nil {p : Char → Bool} : wordsP p [] = [] := rfl

theorem wordsP_cons_neg {p : Char → Bool} {c : Char} {l : List Char} (h : p c = false) :
    wordsP p (c :: l) = wordsP p l := by
  cases l <;> simp [wordsP, h]

theorem wordsP_single {p : Char → Bool} {c : Char} (h : p c = true) :
    wordsP p [c] = [[c]] := by
  simp [wordsP, h]

theorem wordsP_cons2_pos {p : Char → Bool} {c d : Char} {l : List Char}
    (hc : p c = true) (hd : p d = true) :
    wordsP p (c :: d :: l) = consHead c (wordsP p (d :: l)) := by
  simp [wordsP, hc, hd]

theorem wordsP_cons2_neg {p : Char → Bool} {c d : Char} {l : List Char}
    (hc : p c = true) (hd : p d = false) :
    wordsP p (c :: d :: l) = [c] :: wordsP p (d :: l) := by
  simp [wordsP, hc, hd]

theorem consHead_ne_nil {c : Char} {L : List (List Char)} : consHead c L ≠ [] := by
  cases L <;> simp [consHead]

theorem wordsP_cons_ne_nil {p : Char → Bool} {c : Char} {l : List Char}
    (h : p c = true) : wordsP p (c :: l) ≠ [] := by
  cases l with
  | nil => rw [wordsP_single h]; simp
  | cons d l2 =>
    by_cases hd : p d = true
    · rw [wordsP_cons2_pos h hd]
      exact consHead_ne_nil
    · rw [wordsP_cons2_neg h (by simpa using hd)]
      simp

theorem joinSep_nil {sep : List Char} : joinSep sep [] = [] := rfl

theorem joinSep_single {sep : List Char} {w : List Char} : joinSep sep [w] = w := rfl

theorem joinSep_cons2 {sep w x : List Char} {ws : List (List Char)} :
    joinSep sep (w :: x :: ws) = w ++ sep ++ joinSep sep (x :: ws) := rfl

theorem joinSep_consHead {sep : List Char} {c : Char} {L : List (List Char)} :
    joinSep sep (consHead c L) = c :: joinSep sep L := by
  cases L with
  | nil => rfl
  | cons w ws =>
    cases ws with
    | nil => rfl
    | cons x ws2 => simp [consHead, joinSep_cons2]

theorem joinSep_ne_nil {sep : List Char} {L : List (List Char)} (hL : L ≠ [])
    (hw : ∀ w ∈ L, w ≠ []) : joinSep sep L ≠ [] := by
  cases L with
  | nil => exact absurd rfl hL
  | cons w ws =>
    cases ws with
    | nil =>
      rw [joinSep_single]
      exact hw w (by simp)
    | cons x ws2 =>
      rw [joinSep_cons2]
      have : w ≠ [] := hw w (by simp)
      simp [this]

theorem stripTrailP_nil {p : Char → Bool} : stripTrailP p [] = [] := rfl

theorem stripTrailP_cons_of_ne {p : Char → Bool} {c : Char} {l : List Char}
    (h : stripTrailP p l ≠ []) : stripTrailP p (c :: l) = c :: stripTrailP p l := by
  rw [stripTrailP]
  cases he : stripTrailP p l with
  | nil => exact absurd he h
  | cons a as => simp

theorem stripTrailP_cons_of_nil {p : Char → Bool} {c : Char} {l : List Char}
    (h : stripTrailP p l = []) :
    stripTrailP p (c :: l) = if p c then [] else [c] := by
  rw [stripTrailP, h]

/-! ## Structural facts about the word decomposition -/

theorem wordsP_eq_nil {p : Char → Bool} :
    ∀ {l : List Char}, (∀ c ∈ l, p c = false) → wordsP p l = []
  | [], _ => rfl
  | c :: rest, h => by
    rw [wordsP_cons_neg (h c (by simp))]
    exact wordsP_eq_nil (fun d hd => h d (by simp [hd]))

theorem wordsP_nil_all {p : Char → Bool} :
    ∀ {l : List Char}, wordsP p l = [] → ∀ c ∈ l, p c = false
  | [], _ => by simp
  | c :: rest, h => by
    by_cases hc : p c = true
    · exact absurd h (wordsP_cons_ne_nil hc)
    · rw [wordsP_cons_neg (by simpa using hc)] at h
      intro d hd
      rcases List.mem_cons.mp hd with he | hm
      · rw [he]
        simpa using hc
      · exact wordsP_nil_all h d hm

theorem wordsP_words_ne_nil {p : Char → Bool} :
    ∀ {l : List Char}, ∀ w ∈ wordsP p l, w ≠ []
  | [], w, hw => by simp [wordsP_nil] at hw
  | c :: rest, w, hw => by
    by_cases hc : p c = true
    · cases rest with
      | nil =>
        rw [wordsP_single hc] at hw
        simp at hw
        simp [hw]
      | cons d l2 =>
        by_cases hd : p d = true
        · rw [wordsP_cons2_pos hc hd] at hw
          cases he : wordsP p (d :: l2) with
          | nil => exact absurd he (wordsP_cons_ne_nil hd)
          | cons w0 ws =>
            rw [he, consHead] at hw
            rcases List.mem_cons.mp hw with h1 | h2
            · simp [h1]
            · exact wordsP_words_ne_nil w (he ▸ List.mem_cons_of_mem w0 h2)
        · rw [wordsP_cons2_neg hc (by simpa using hd)] at hw
          rcases List.mem_cons.mp hw with h1 | h2
          · simp [h1]
          · exact wordsP_words_ne_nil w h2
    · rw [wordsP_cons_neg (by simpa using hc)] at hw
      exact wordsP_words_ne_nil w hw

theorem wordsP_words_chars {p : Char → Bool} :
    ∀ {l : List Char}, ∀ w ∈ wordsP p l, ∀ c ∈ w, p c = true
  | [], w, hw => by simp [wordsP_nil] at hw
  | a :: rest, w, hw => by
    by_cases ha : p a = true
    · cases rest with
      | nil =>
        rw [wordsP_single ha] at hw
        simp at hw
        intro c hc
        rw [hw] at hc
        simp at hc
        rw [hc]
        exact ha
      | cons d l2 =>
        by_cases hd : p d = true
        · rw [wordsP_cons2_pos ha hd] at hw
          cases he : wordsP p (d :: l2) with
          | nil => exact absurd he (wordsP_cons_ne_nil hd)
          | cons w0 ws =>
            rw [he, consHead] at hw
            rcases List.mem_cons.mp hw with h1 | h2
            · intro c hc
              rw [h1] at hc
              rcases List.mem_cons.mp hc with h3 | h4
              · rw [h3]
                exact ha
              · exact wordsP_words_chars w0 (he ▸ List.mem_cons_self w0 ws) c h4
            · exact wordsP_words_chars w (he ▸ List.mem_cons_of_mem w0 h2)
        · rw [wordsP_cons2_neg ha (by simpa using hd)] at hw
          rcases List.mem_cons.mp hw with h1 | h2
          · intro c hc
            rw [h1] at hc
            simp at hc
            rw [hc]
            exact ha
          · exact wordsP_words_chars w h2
    · rw [wordsP_cons_neg (by simpa using ha)] at hw
      exact wordsP_words_chars w hw

theorem sepSub_true_shape {sep : Char} :
    ∀ l : List Char, sepSub sep true l = [] ∨
      ∃ c t, sepSub sep true l = c :: t ∧ isAlnumA c = true
  | [] => Or.inl rfl
  | c :: rest => by
    by_cases hc : isAlnumA c = true
    · exact Or.inr ⟨c, sepSub sep false rest, sepSub_cons_alnum hc, hc⟩
    · rw [sepSub_cons_true (by simpa using hc)]
      exact sepSub_true_shape rest

theorem sepSub_true_eq_nil {sep : Char} :
    ∀ {l : List Char}, (∀ c ∈ l, isAlnumA c = false) → sepSub sep true l = []
  | [], _ => rfl
  | c :: rest, h => by
    rw [sepSub_cons_true (h c (by simp))]
    exact sepSub_true_eq_nil (fun d hd => h d (by simp [hd]))

theorem dropWhile_sepSub_true {sep : Char} (hsep : isAlnumA sep = false)
    (l : List Char) :
    (sepSub sep true l).dropWhile (fun c => c == sep) = sepSub sep true l := by
  rcases @sepSub_true_shape sep l with h | ⟨c, t, h, hc⟩
  · rw [h]
    rfl
  · rw [h, List.dropWhile_cons, isAlnumA_ne_of_not hc hsep]
    simp

theorem dropWhile_sepSub_false {sep : Char} (hsep : isAlnumA sep = false) :
    ∀ l : List Char,
      (sepSub sep false l).dropWhile (fun c => c == sep) = sepSub sep true l
  | [] => rfl
  | c :: rest => by
    by_cases hc : isAlnumA c = true
    · rw [sepSub_cons_alnum hc, sepSub_cons_alnum hc, List.dropWhile_cons,
        isAlnumA_ne_of_not hc hsep]
      simp
    · rw [sepSub_cons_false (by simpa using hc), sepSub_cons_true (by simpa using hc),
        List.dropWhile_cons]
      simp only [beq_self_eq_true, if_true]
      exact dropWhile_sepSub_true hsep rest

/-- Trailing strip of the underscore-substituted string produces the
underscore-joined word list. -/
theorem stripTrailP_sepSub_underscore :
    ∀ l : List Char,
      stripTrailP (fun c => c == '_') (sepSub '_' true l) =
        joinSep ['_'] (wordsP isAlnumA l)
  | [] => rfl
  | c :: rest => by
    by_cases hc : isAlnumA c = true
    · rw [sepSub_cons_alnum hc]
      cases rest with
      | nil =>
        rw [sepSub_nil, stripTrailP_cons_of_nil stripTrailP_nil,
          isAlnumA_beq_underscore hc, wordsP_single hc]
        rfl
      | cons d l2 =>
        by_cases hd : isAlnumA d = true
        · have hsw : sepSub '_' false (d :: l2) = sepSub '_' true (d :: l2) := by
            rw [sepSub_cons_alnum hd, sepSub_cons_alnum hd]
          have ih := stripTrailP_sepSub_underscore (d :: l2)
          have hne : stripTrailP (fun c => c == '_') (sepSub '_' true (d :: l2)) ≠ [] := by
            rw [ih]
            exact joinSep_ne_nil (wordsP_cons_ne_nil hd) (fun w hw => wordsP_words_ne_nil w hw)
          rw [hsw, stripTrailP_cons_of_ne hne, ih, wordsP_cons2_pos hc hd,
            joinSep_consHead]
        · have hdf : isAlnumA d = false := by simpa using hd
          rw [sepSub_cons_false hdf]
          have hst : sepSub '_' true (d :: l2) = sepSub '_' true l2 := sepSub_cons_true hdf
          have ih := stripTrailP_sepSub_underscore (d :: l2)
          rw [hst] at ih
          by_cases hw : wordsP isAlnumA (d :: l2) = []
          · have hwl2 : wordsP isAlnumA l2 = [] := by
              rw [← wordsP_cons_neg hdf]
              exact hw
            have hsnil : sepSub '_' true l2 = [] :=
              sepSub_true_eq_nil (wordsP_nil_all hwl2)
            have h1 : stripTrailP (fun c => c == '_') ['_'] = [] := by
              rw [stripTrailP_cons_of_nil stripTrailP_nil]
              simp
            rw [hsnil, stripTrailP_cons_of_nil h1, isAlnumA_beq_underscore hc,
              wordsP_cons2_neg hc hdf, hw]
            rfl
          · have hwl2 : wordsP isAlnumA (d :: l2) = wordsP isAlnumA l2 :=
              wordsP_cons_neg hdf
            have hjne : joinSep ['_'] (wordsP isAlnumA (d :: l2)) ≠ [] :=
              joinSep_ne_nil hw (fun w hwm => wordsP_words_ne_nil w hwm)
            have hne2 : stripTrailP (fun c => c == '_') (sepSub '_' true l2) ≠ [] := by
              rw [ih]
              exact hjne
            have hne3 : stripTrailP (fun c => c == '_') ('_' :: sepSub '_' true l2) ≠ [] := by
              rw [stripTrailP_cons_of_ne hne2]
              simp
            rw [stripTrailP_cons_of_ne hne3, stripTrailP_cons_of_ne hne2, ih,
              wordsP_cons2_neg hc hdf]
            cases hww : wordsP isAlnumA (d :: l2) with
            | nil => exact absurd hww hw
            | cons w0 ws => rw [joinSep_cons2]; rfl
    · have hcf : isAlnumA c = false := by simpa using hc
      rw [sepSub_cons_true hcf, wordsP_cons_neg hcf]
      exact stripTrailP_sepSub_underscore rest

/-- Splitting the space-substituted string on non-space runs recovers the
alphanumeric words of the original string. -/
theorem wordsP_sepSub_space :
    ∀ (l : List Char) (b : Bool),
      wordsP (fun c => !pyIsSpace c) (sepSub ' ' b l) = wordsP isAlnumA l
  | [], b => by rw [sepSub_nil]; rfl
  | c :: rest, b => by
    by_cases hc : isAlnumA c = true
    · have hqc : (!pyIsSpace c) = true := by rw [isAlnumA_not_space hc]; rfl
      rw [sepSub_cons_alnum hc]
      cases rest with
      | nil =>
        rw [sepSub_nil, wordsP_single hqc, wordsP_single hc]
      | cons d l2 =>
        by_cases hd : isAlnumA d = true
        · have hqd : (!pyIsSpace d) = true := by rw [isAlnumA_not_space hd]; rfl
          rw [sepSub_cons_alnum hd, wordsP_cons2_pos hqc hqd,
            ← @sepSub_cons_alnum ' ' d false l2 hd,
            wordsP_sepSub_space (d :: l2) false, wordsP_cons2_pos hc hd]
        · have hdf : isAlnumA d = false := by simpa using hd
          have hqs : (!pyIsSpace ' ') = false := by decide
          rw [sepSub_cons_false hdf, wordsP_cons2_neg hqc hqs, wordsP_cons_neg hqs,
            ← @sepSub_cons_true ' ' d l2 hdf, wordsP_sepSub_space (d :: l2) true,
            wordsP_cons2_neg hc hdf]
    · have hcf : isAlnumA c = false := by simpa using hc
      have ht := wordsP_sepSub_space rest true
      rw [wordsP_cons_neg hcf]
      cases b with
      | true => rw [sepSub_cons_true hcf]; exact ht
      | false =>
        rw [sepSub_cons_false hcf, wordsP_cons_neg (by decide : (!pyIsSpace ' ') = false)]
        exact ht

/-! ## Invariance of the word decomposition under stripping -/

theorem stripTrailP_append {p : Char → Bool} :
    ∀ l : List Char, ∃ j, l = stripTrailP p l ++ j ∧ ∀ c ∈ j, p c = true
  | [] => ⟨[], rfl, by simp⟩
  | c :: rest => by
    obtain ⟨j, hj, hall⟩ := @stripTrailP_append p rest
    cases he : stripTrailP p rest with
    | nil =>
      rw [he] at hj
      simp only [List.nil_append] at hj
      by_cases hp : p c = true
      · refine ⟨c :: rest, ?_, ?_⟩
        · rw [stripTrailP_cons_of_nil he, if_pos hp]
          rfl
        · intro d hd
          rcases List.mem_cons.mp hd with h1 | h2
          · rw [h1]; exact hp
          · exact hall d (hj ▸ h2)
      · refine ⟨j, ?_, hall⟩
        rw [stripTrailP_cons_of_nil he, if_neg hp, ← hj]
        rfl
    | cons a as =>
      refine ⟨j, ?_, hall⟩
      rw [stripTrailP_cons_of_ne (by rw [he]; simp), List.cons_append, ← hj]

theorem wordsP_append_junk {p : Char → Bool} {j : List Char}
    (hj : ∀ c ∈ j, p c = false) :
    ∀ l : List Char, wordsP p (l ++ j) = wordsP p l
  | [] => by
    rw [List.nil_append, wordsP_nil]
    exact wordsP_eq_nil hj
  | c :: rest => by
    by_cases hp : p c = true
    · cases rest with
      | nil =>
        cases j with
        | nil => rfl
        | cons d j2 =>
          have hdf : p d = false := hj d (by simp)
          have hj2 : wordsP p j2 = [] :=
            wordsP_eq_nil (fun e he => hj e (by simp [he]))
          rw [List.cons_append, List.nil_append, wordsP_cons2_neg hp hdf,
            wordsP_single hp, wordsP_cons_neg hdf, hj2]
      | cons d rest2 =>
        by_cases hd : p d = true
        · rw [List.cons_append, List.cons_append, wordsP_cons2_pos hp hd,
            ← List.cons_append, wordsP_append_junk hj (d :: rest2),
            wordsP_cons2_pos hp hd]
        · have hdf : p d = false := by simpa using hd
          rw [List.cons_append, List.cons_append, wordsP_cons2_neg hp hdf,
            ← List.cons_append, wordsP_append_junk hj (d :: rest2),
            wordsP_cons2_neg hp hdf]
    · have hpf : p c = false := by simpa using hp
      rw [List.cons_append, wordsP_cons_neg hpf, wordsP_cons_neg hpf]
      exact wordsP_append_junk hj rest

theorem wordsP_stripTrailP {p q : Char → Bool} (h : ∀ c, q c = true → p c = false)
    (l : List Char) : wordsP p (stripTrailP q l) = wordsP p l := by
  obtain ⟨j, hj, hall⟩ := @stripTrailP_append q l
  conv_rhs => rw [hj]
  rw [wordsP_append_junk (fun c hc => h c (hall c hc))]

theorem wordsP_dropWhile {p q : Char → Bool} (h : ∀ c, q c = true → p c = false) :
    ∀ l : List Char, wordsP p (l.dropWhile q) = wordsP p l
  | [] => rfl
  | c :: rest => by
    rw [List.dropWhile_cons]
    by_cases hq : q c = true
    · rw [if_pos hq, wordsP_cons_neg (h c hq)]
      exact wordsP_dropWhile h rest
    · rw [if_neg hq]

theorem wordsP_pyStripP {p q : Char → Bool} (h : ∀ c, q c = true → p c = false)
    (l : List Char) : wordsP p (pyStripP q l) = wordsP p l := by
  unfold pyStripP
  rw [wordsP_stripTrailP h, wordsP_dropWhile h]

/-! ## Reassembling words -/

theorem wordsP_all_pos {p : Char → Bool} :
    ∀ {w : List Char}, w ≠ [] → (∀ c ∈ w, p c = true) → wordsP p w = [w]
  | [], hne, _ => absurd rfl hne
  | [c], _, hall => wordsP_single (hall c (by simp))
  | c :: d :: w2, _, hall => by
    have hc : p c = true := hall c (by simp)
    have hd : p d = true := hall d (by simp)
    rw [wordsP_cons2_pos hc hd,
      wordsP_all_pos (by simp) (fun e he => hall e (by simp [List.mem_cons.mp he])), consHead]

theorem wordsP_word_append {p : Char → Bool} {sep : Char} (hsep : p sep = false) :
    ∀ {w : List Char}, w ≠ [] → (∀ c ∈ w, p c = true) →
      ∀ t : List Char, wordsP p (w ++ sep :: t) = w :: wordsP p t
  | [], hne, _ => absurd rfl hne
  | [c], _, hall => by
    intro t
    have hc : p c = true := hall c (by simp)
    rw [List.cons_append, List.nil_append, wordsP_cons2_neg hc hsep,
      wordsP_cons_neg hsep]
  | c :: d :: w2, _, hall => by
    intro t
    have hc : p c = true := hall c (by simp)
    have hd : p d = true := hall d (by simp)
    rw [List.cons_append, List.cons_append, wordsP_cons2_pos hc hd, ← List.cons_append,
      wordsP_word_append hsep (by simp) (fun e he => hall e (by simp [List.mem_cons.mp he])) t,
      consHead]

theorem wordsP_joinSep {p : Char → Bool} {sep : Char} (hsep : p sep = false) :
    ∀ {L : List (List Char)},
      (∀ w ∈ L, w ≠ [] ∧ ∀ c ∈ w, p c = true) → wordsP p (joinSep [sep] L) = L
  | [], _ => rfl
  | [w], hL => by
    rw [joinSep_single]
    exact wordsP_all_pos (hL w (by simp)).1 (hL w (by simp)).2
  | w :: x :: ws, hL => by
    rw [joinSep_cons2]
    have hx : [sep] ++ joinSep [sep] (x :: ws) = sep :: joinSep [sep] (x :: ws) := rfl
    rw [List.append_assoc, hx,
      wordsP_word_append hsep (hL w (by simp)).1 (hL w (by simp)).2,
      wordsP_joinSep hsep (fun v hv => hL v (by simp [hv]))]

/-! ## Canonical forms of the two slug functions -/

theorem map_lowerChar_joinSep :
    ∀ L : List (List Char),
      (joinSep ['_'] L).map lowerChar = joinSep ['_'] (L.map (List.map lowerChar))
  | [] => rfl
  | [w] => rfl
  | w :: x :: ws => by
    rw [joinSep_cons2, List.map_cons, List.map_cons, joinSep_cons2, List.map_append,
      List.map_append, map_lowerChar_joinSep (x :: ws), List.map_cons]
    simp [lowerChar_underscore]

theorem slug_canon (s : String) :
    V1.slug s = String.mk ((joinSep ['_'] (wordsP isAlnumA s.data)).map lowerChar) := by
  unfold V1.slug pyStripP
  rw [dropWhile_sepSub_false (by decide), stripTrailP_sepSub_underscore]

theorem to_snake_canon (s : String) :
    V2.to_snake_case s =
      if wordsP isAlnumA s.data = [] then "record_type"
      else String.mk (joinSep ['_'] ((wordsP isAlnumA s.data).map (List.map lowerChar))) := by
  have hs : ∀ c, pyIsSpace c = true → isAlnumA c = false :=
    fun c hc => space_not_alnumA hc
  have h1 : wordsP (fun c => !pyIsSpace c) (sepSub ' ' false (pyStripP pyIsSpace s.data)) =
      wordsP isAlnumA s.data := by
    rw [wordsP_sepSub_space, wordsP_pyStripP hs]
  have h2 : (wordsP isAlnumA s.data).filter (fun w => !w.isEmpty) =
      wordsP isAlnumA s.data :=
    List.filter_eq_self.mpr (fun w hw => by
      have hne := wordsP_words_ne_nil w hw
      simp [List.isEmpty_iff, hne])
  simp only [V2.to_snake_case]
  rw [h1, h2]
  by_cases hW : wordsP isAlnumA s.data = []
  · rw [if_pos hW, hW]
    rfl
  · rw [if_neg hW]
    have hme : ((wordsP isAlnumA s.data).map (List.map lowerChar)).isEmpty = false := by
      simp [List.isEmpty_iff, List.map_eq_nil_iff, hW]
    rw [hme]
    simp

theorem string_mk_ne_empty {l : List Char} (h : l ≠ []) : String.mk l ≠ "" := by
  intro he
  apply h
  have := congrArg String.data he
  simpa using this

/-- The central equivalence: `to_snake_case` coincides with
`slug(x) or "record_type"`. -/
theorem to_snake_eq_slugOrDefault (s : String) :
    V2.to_snake_case s = slugOrDefault s := by
  rw [to_snake_canon]
  unfold slugOrDefault pyOrS
  rw [slug_canon]
  by_cases hW : wordsP isAlnumA s.data = []
  · rw [if_pos hW, hW]
    simp [joinSep_nil]
  · rw [if_neg hW]
    have hjne : joinSep ['_'] (wordsP isAlnumA s.data) ≠ [] :=
      joinSep_ne_nil hW (fun w hw => wordsP_words_ne_nil w hw)
    have hne : (joinSep ['_'] (wordsP isAlnumA s.data)).map lowerChar ≠ [] := by
      simpa [List.map_eq_nil_iff] using hjne
    rw [if_pos (string_mk_ne_empty hne), map_lowerChar_joinSep]

/-! ## Character alphabet and idempotence of the slug functions -/

theorem string_data_mk (l : List Char) : (String.mk l).data = l := rfl

theorem mem_joinSep {sep c : Char} :
    ∀ {L : List (List Char)}, c ∈ joinSep [sep] L → c = sep ∨ ∃ w ∈ L, c ∈ w
  | [], h => by simp [joinSep_nil] at h
  | [w], h => by
    rw [joinSep_single] at h
    exact Or.inr ⟨w, by simp, h⟩
  | w :: x :: ws, h => by
    rw [joinSep_cons2] at h
    rcases List.mem_append.mp h with h1 | h2
    · rcases List.mem_append.mp h1 with h3 | h4
      · exact Or.inr ⟨w, by simp, h3⟩
      · simp at h4
        exact Or.inl h4
    · rcases mem_joinSep h2 with h5 | ⟨v, hv, hcv⟩
      · exact Or.inl h5
      · exact Or.inr ⟨v, by simp [hv], hcv⟩

theorem slug_data_chars (s : String) :
    ∀ c ∈ (V1.slug s).data, isLowerDigitSep c = true := by
  rw [slug_canon, string_data_mk]
  intro c hc
  obtain ⟨c0, hc0, rfl⟩ := List.mem_map.mp hc
  rcases mem_joinSep hc0 with h | ⟨w, hw, hcw⟩
  · rw [h, lowerChar_underscore]
    decide
  · exact isLowerDigitSep_lowerChar (wordsP_words_chars w hw c0 hcw)

theorem lowered_words_good (l : List Char) :
    ∀ w ∈ (wordsP isAlnumA l).map (List.map lowerChar),
      w ≠ [] ∧ ∀ c ∈ w, isAlnumA c = true := by
  intro w hw
  obtain ⟨w0, hw0, rfl⟩ := List.mem_map.mp hw
  refine ⟨?_, ?_⟩
  · simpa [List.map_eq_nil_iff] using wordsP_words_ne_nil w0 hw0
  · intro c hc
    obtain ⟨c0, hc0, rfl⟩ := List.mem_map.mp hc
    exact isAlnumA_lowerChar (wordsP_words_chars w0 hw0 c0 hc0)

theorem to_snake_chars (s : String) :
    ∀ c ∈ (V2.to_snake_case s).data, isLowerDigitSep c = true := by
  rw [to_snake_canon]
  by_cases hW : wordsP isAlnumA s.data = []
  · rw [if_pos hW]
    decide
  · rw [if_neg hW, string_data_mk]
    intro c hc
    rcases mem_joinSep hc with h | ⟨w, hw, hcw⟩
    · rw [h]
      decide
    · obtain ⟨w0, hw0, rfl⟩ := List.mem_map.mp hw
      obtain ⟨c0, hc0, rfl⟩ := List.mem_map.mp hcw
      exact isLowerDigitSep_lowerChar (wordsP_words_chars w0 hw0 c0 hc0)

theorem to_snake_ne_empty (s : String) : V2.to_snake_case s ≠ "" := by
  rw [to_snake_canon]
  by_cases hW : wordsP isAlnumA s.data = []
  · rw [if_pos hW]
    decide
  · rw [if_neg hW]
    apply string_mk_ne_empty
    apply joinSep_ne_nil
    · simpa [List.map_eq_nil_iff] using hW
    · intro w hw
      exact (lowered_words_good s.data w hw).1

theorem slug_of_no_alnum {s : String} (h : ∀ c ∈ s.data, isAlnumA c = false) :
    V1.slug s = "" := by
  rw [slug_canon, wordsP_eq_nil h]
  rfl

theorem to_snake_of_no_alnum {s : String} (h : ∀ c ∈ s.data, isAlnumA c = false) :
    V2.to_snake_case s = "record_type" := by
  rw [to_snake_canon, if_pos (wordsP_eq_nil h)]

theorem slug_data_words (s : String) :
    wordsP isAlnumA (V1.slug s).data =
      (wordsP isAlnumA s.data).map (List.map lowerChar) := by
  rw [slug_canon, string_data_mk, map_lowerChar_joinSep]
  exact wordsP_joinSep (by decide) (lowered_words_good s.data)

theorem mapLower_idem (w : List Char) :
    List.map lowerChar (List.map lowerChar w) = List.map lowerChar w := by
  rw [List.map_map]
  congr 1
  funext c
  exact lowerChar_idem c

theorem mapLower_list_idem (W : List (List Char)) :
    (W.map (List.map lowerChar)).map (List.map lowerChar) = W.map (List.map lowerChar) := by
  rw [List.map_map]
  congr 1
  funext w
  exact mapLower_idem w

theorem slug_idem (s : String) : V1.slug (V1.slug s) = V1.slug s := by
  rw [slug_canon (V1.slug s), slug_data_words, slug_canon s, map_lowerChar_joinSep,
    map_lowerChar_joinSep, mapLower_list_idem]

theorem to_snake_idem (s : String) :
    V2.to_snake_case (V2.to_snake_case s) = V2.to_snake_case s := by
  by_cases hW : wordsP isAlnumA s.data = []
  · have h1 : V2.to_snake_case s = "record_type" := by
      rw [to_snake_canon, if_pos hW]
    rw [h1]
    rfl
  · have h1 : V2.to_snake_case s =
        String.mk (joinSep ['_'] ((wordsP isAlnumA s.data).map (List.map lowerChar))) := by
      rw [to_snake_canon, if_neg hW]
    have hwords : wordsP isAlnumA (V2.to_snake_case s).data =
        (wordsP isAlnumA s.data).map (List.map lowerChar) := by
      rw [h1, string_data_mk]
      exact wordsP_joinSep (by decide) (lowered_words_good s.data)
    have hWne : (wordsP isAlnumA s.data).map (List.map lowerChar) ≠ [] := by
      simpa [List.map_eq_nil_iff] using hW
    rw [to_snake_canon (V2.to_snake_case s), hwords, if_neg hWne, h1,
      mapLower_list_idem]

/-! ## Helper lemmas about the extractors and the tag fallback -/

theorem slugOrDefault_ne_empty (s : String) : slugOrDefault s ≠ "" := by
  unfold slugOrDefault pyOrS
  by_cases h : V1.slug s ≠ ""
  · rw [if_pos h]
    exact h
  · rw [if_neg h]
    decide

theorem slugOrDefault_chars (s : String) :
    ∀ c ∈ (slugOrDefault s).data, isLowerDigitSep c = true := by
  unfold slugOrDefault pyOrS
  by_cases h : V1.slug s ≠ ""
  · rw [if_pos h]
    exact slug_data_chars s
  · rw [if_neg h]
    decide

theorem slugOrDefault_of_no_alnum {s : String}
    (h : ∀ c ∈ s.data, isAlnumA c = false) : slugOrDefault s = "record_type" := by
  unfold slugOrDefault pyOrS
  rw [slug_of_no_alnum h]
  decide

theorem mkField_isSome (f : XElem) :
    (mkField f).isSome = true ↔
      (pyStripWs (findtextD f "fieldName" "") ≠ "" ∧
       pyStripWs (findtextD f "uuid" "") ≠ "") := by
  by_cases h : pyStripWs (findtextD f "fieldName" "") ≠ "" ∧
      pyStripWs (findtextD f "uuid" "") ≠ ""
  · simp [mkField, h]
  · simp [mkField, h]

theorem mkRel_isSome (rc : XElem) :
    (mkRel rc).isSome = true ↔
      (pyStripWs (findtextD rc "uuid" "") ≠ "" ∧
       pyStripWs (findtextD rc "relationshipName" "") ≠ "") := by
  by_cases h : pyStripWs (findtextD rc "uuid" "") ≠ "" ∧
      pyStripWs (findtextD rc "relationshipName" "") ≠ ""
  · simp [mkRel, h]
  · simp [mkRel, h]

theorem mkAction_isSome (ac : XElem) :
    (mkAction ac).isSome = true ↔
      (pyOrEmpty (attrGet ac (nsTag "uuid")) ≠ "" ∧
       pyStripWs (findtextD ac (nsTag "referenceKey") "") ≠ "") := by
  by_cases h : pyOrEmpty (attrGet ac (nsTag "uuid")) ≠ "" ∧
      pyStripWs (findtextD ac (nsTag "referenceKey") "") ≠ ""
  · simp [mkAction, h]
  · simp [mkAction, h]

theorem pyStripWs_empty : pyStripWs "" = "" := rfl

theorem truthy_eq_false_iff (x : Option String) :
    truthy x = false ↔ (x = none ∨ x = some "") := by
  cases x with
  | none => simp [truthy]
  | some s => simp [truthy]

/-- The code computation `(t1 or t2).strip() or key` agrees with the
specification wording of the display-name choice on every input. -/
theorem actionName_eq_spec (t1 t2 key : String) :
    pyOrS (pyStripWs (pyOrS t1 t2)) key = specActionDisplayName t1 t2 key := by
  unfold specActionDisplayName
  by_cases h1 : t1 = ""
  · have hsel : pyOrS t1 t2 = t2 := by
      unfold pyOrS
      rw [if_neg (by simp [h1])]
    rw [hsel, if_neg (by simp [h1, pyStripWs_empty]), if_pos h1]
    rfl
  · have hsel : pyOrS t1 t2 = t1 := by
      unfold pyOrS
      rw [if_pos h1]
    rw [hsel]
    by_cases h2 : pyStripWs t1 ≠ ""
    · rw [if_pos h2]
      unfold pyOrS
      rw [if_pos h2]
    · rw [if_neg h2, if_neg h1]
      unfold pyOrS
      rw [if_neg h2]

theorem mkAction_spec (ac : XElem) (a : RTAction) (h : mkAction ac = some a) :
    a.key = pyStripWs (findtextD ac (nsTag "referenceKey") "") ∧
    a.uuid = pyOrEmpty (attrGet ac (nsTag "uuid")) ∧
    a.name = specActionDisplayName (findtextD ac (nsTag "staticTitle") "")
      (findtextD ac (nsTag "staticTitleString") "") a.key := by
  unfold mkAction at h
  by_cases hc : pyOrEmpty (attrGet ac (nsTag "uuid")) ≠ "" ∧
      pyStripWs (findtextD ac (nsTag "referenceKey") "") ≠ ""
  · rw [if_pos hc, Option.some.injEq] at h
    subst h
    refine ⟨rfl, rfl, ?_⟩
    exact actionName_eq_spec _ _ _
  · rw [if_neg hc] at h
    exact absurd h (by simp)

/-! ## Claim theorems -/

/-- Claim C1: for every entity identifier, entity name, child identifier and
child name-or-key, the reference strings produced by `render_markdown` have
exactly the fixed shape `recordType!` with the brace-wrapped identifier
immediately followed (no separator) by the name, wrapped in single quotes,
with the category segment `fields`, `relationships` or `actions` for
children, and every identifier and name inserted verbatim with no escaping. -/
theorem c1_reference_shapes (eid ename d cid cname : String)
    (fs : List RTField) (rs : List RTRel) (acts : List RTAction) :
    entityRef ⟨some eid, ename, d, fs, rs, acts⟩ =
      "\x27recordType!\x7b" ++ eid ++ "\x7d" ++ ename ++ "\x27" ∧
    fieldRef ⟨some eid, ename, d, fs, rs, acts⟩ cid cname =
      "\x27recordType!\x7b" ++ eid ++ "\x7d" ++ ename ++ ".fields.\x7b" ++ cid ++
        "\x7d" ++ cname ++ "\x27" ∧
    relRef ⟨some eid, ename, d, fs, rs, acts⟩ cid cname =
      "\x27recordType!\x7b" ++ eid ++ "\x7d" ++ ename ++ ".relationships.\x7b" ++ cid ++
        "\x7d" ++ cname ++ "\x27" ∧
    actionRef ⟨some eid, ename, d, fs, rs, acts⟩ cid cname =
      "\x27recordType!\x7b" ++ eid ++ "\x7d" ++ ename ++ ".actions.\x7b" ++ cid ++
        "\x7d" ++ cname ++ "\x27" :=
  ⟨rfl, rfl, rfl, rfl⟩

/-- Claim C7: the relationship-kind normaliser is a total function; the four
known tokens map to their hyphenated lowercase labels, and every other token
maps to its lowercased form with every underscore replaced by a hyphen. -/
theorem c7_rel_kind_normalizer :
    relKindOf "ONE_TO_MANY" = "one-to-many" ∧
    relKindOf "MANY_TO_ONE" = "many-to-one" ∧
    relKindOf "ONE_TO_ONE" = "one-to-one" ∧
    relKindOf "MANY_TO_MANY" = "many-to-many" ∧
    ∀ raw : String,
      raw ∉ ["ONE_TO_MANY", "MANY_TO_ONE", "ONE_TO_ONE", "MANY_TO_MANY"] →
        relKindOf raw =
          String.mk ((raw.data.map lowerChar).map (fun c => if c == '_' then '-' else c)) := by
  refine ⟨rfl, rfl, rfl, rfl, ?_⟩
  intro raw hraw
  simp only [List.mem_cons, List.not_mem_nil, or_false, not_or] at hraw
  obtain ⟨h1, h2, h3, h4⟩ := hraw
  have b1 : (raw == "ONE_TO_MANY") = false := beq_eq_false_iff_ne.mpr h1
  have b2 : (raw == "MANY_TO_ONE") = false := beq_eq_false_iff_ne.mpr h2
  have b3 : (raw == "ONE_TO_ONE") = false := beq_eq_false_iff_ne.mpr h3
  have b4 : (raw == "MANY_TO_MANY") = false := beq_eq_false_iff_ne.mpr h4
  unfold relKindOf
  rw [show List.lookup raw REL_MAP = none from by
    simp [REL_MAP, List.lookup, b1, b2, b3, b4]]

/-- Claim C7 witness: a token outside the dictionary is lowercased and
hyphenated. -/
theorem c7_witness :
    ("SELF_REFERENCE" : String) ∉
        ["ONE_TO_MANY", "MANY_TO_ONE", "ONE_TO_ONE", "MANY_TO_MANY"] ∧
    relKindOf "SELF_REFERENCE" = "self-reference" := by
  refine ⟨by decide, ?_⟩
  rw [c7_rel_kind_normalizer.2.2.2.2 "SELF_REFERENCE" (by decide)]
  rfl

/-- Claim C8: both slug functions are idempotent:
`slug (slug x) = slug x` and
`to_snake_case (to_snake_case x) = to_snake_case x` for every string. -/
theorem c8_slug_idempotent (x : String) :
    V1.slug (V1.slug x) = V1.slug x ∧
    V2.to_snake_case (V2.to_snake_case x) = V2.to_snake_case x :=
  ⟨slug_idem x, to_snake_idem x⟩

/-- Claim C10: the two `render_markdown` functions return identical text on
every canonical record and title; equivalently `to_snake_case x` equals
`slug x` when the latter is non-empty and `record_type` otherwise. -/
theorem c10_render_equivalence (rt : RecordTypeRec) (title x : String) :
    V1.render_markdown rt title = V2.render_markdown rt title ∧
    V2.to_snake_case x = (if V1.slug x ≠ "" then V1.slug x else "record_type") := by
  constructor
  · unfold V1.render_markdown V2.render_markdown
    rw [to_snake_eq_slugOrDefault]
    rfl
  · have h := to_snake_eq_slugOrDefault x
    rwa [slugOrDefault, pyOrS] at h

/-- Claim C2 (counterexample): for scenario A the rendered markdown does not
contain the literal text `**Description**: Not provided.` — the renderer
emits `**Description**: ` and `Not provided.` as separate list entries, so a
newline stands between them in the joined output. -/
theorem c2_counterexample :
    V1.parse_recordtype c2doc = .ok c2rec ∧
    strContains c2md "**Description**: Not provided." = false :=
  ⟨rfl, rfl⟩

/-- Claim C2 (amended): for the canonical entity of scenario A, the rendered
markdown contains `**Description**: ` immediately followed by a newline and
`Not provided.`; the Fields table has the single data row of the claim and
that row occurs in the output; and `Not available` occurs in each of the
Relationships, User Filters and Record Actions sections; both renderers
produce this same text. -/
theorem c2_amended :
    V1.parse_recordtype c2doc = .ok c2rec ∧
    V2.render_markdown c2rec c2title = c2md ∧
    c2rec.fields.map (fieldRow c2rec) =
      ["| Total | Integer | `\x27recordType!\x7b123\x7dInvoice.fields.\x7bf1\x7dTotal\x27` |"] ∧
    strContains c2md "**Description**: \nNot provided." = true ∧
    strContains c2md
      "| Total | Integer | `\x27recordType!\x7b123\x7dInvoice.fields.\x7bf1\x7dTotal\x27` |" = true ∧
    strContains c2md "**Relationships**:\n\nNot available" = true ∧
    strContains c2md "**User Filters**:\n\nNot available" = true ∧
    strContains c2md "**Record Actions**:\n\n\nNot available" = true :=
  ⟨rfl, rfl, rfl, rfl, rfl, rfl, rfl, rfl⟩

/-- Claim C3 (counterexample): `slug` of `xml_to_appian_recordtype_md.py`
applied to an all-punctuation string yields the empty string, which is
neither non-empty nor the fallback token `record_type`. -/
theorem c3_counterexample :
    V1.slug "!!!" = "" ∧ ("" : String) ≠ "record_type" :=
  ⟨rfl, by decide⟩

/-- Claim C3 (amended): `to_snake_case` always returns a non-empty string of
lowercase letters, digits and underscores, and returns `record_type` on
empty or alphanumeric-free input; `slug` returns a possibly-empty string
over the same alphabet, empty on alphanumeric-free input, and the fallback
`slug(x) or "record_type"` applied at its call site restores the claimed
property. -/
theorem c3_amended (s : String) :
    (V2.to_snake_case s ≠ "" ∧
      ∀ c ∈ (V2.to_snake_case s).data, isLowerDigitSep c = true) ∧
    ((∀ c ∈ s.data, isAlnumA c = false) → V2.to_snake_case s = "record_type") ∧
    (∀ c ∈ (V1.slug s).data, isLowerDigitSep c = true) ∧
    ((∀ c ∈ s.data, isAlnumA c = false) → V1.slug s = "") ∧
    (slugOrDefault s ≠ "" ∧
      ∀ c ∈ (slugOrDefault s).data, isLowerDigitSep c = true) ∧
    ((∀ c ∈ s.data, isAlnumA c = false) → slugOrDefault s = "record_type") :=
  ⟨⟨to_snake_ne_empty s, to_snake_chars s⟩,
   fun h => to_snake_of_no_alnum h,
   slug_data_chars s,
   fun h => slug_of_no_alnum h,
   ⟨slugOrDefault_ne_empty s, slugOrDefault_chars s⟩,
   fun h => slugOrDefault_of_no_alnum h⟩

/-- Claim C3 witness: the amended claim evaluated on the all-punctuation
input. -/
theorem c3_amended_witness :
    V2.to_snake_case "!!!" = "record_type" ∧ V1.slug "!!!" = "" ∧
    slugOrDefault "!!!" = "record_type" :=
  ⟨(c3_amended "!!!").2.1 (by decide),
   (c3_amended "!!!").2.2.2.1 (by decide),
   (c3_amended "!!!").2.2.2.2.2 (by decide)⟩

/-- Claim C4 (counterexample): in `xml_to_appian_recordtype_md.py`, when both
uuid attributes are absent the extracted identifier is Python `None`, not the
empty string (there is no `or ""` on its uuid line); extraction still
succeeds. -/
theorem c4_counterexample :
    V1.parse_recordtype c4doc = .ok c4rec ∧
    c4rec.uuid = none ∧ c4rec.uuid ≠ some "" :=
  ⟨rfl, rfl, by decide⟩

/-- Claim C4 (amended): extraction never fails because of a missing
identity in either script; the identifier is the namespaced uuid attribute
when that is present and non-empty, and the unnamespaced uuid attribute's
value otherwise; the extracted name is the empty string when the name
attribute is absent in both scripts; in
`map_xml_to_appian_recordtype_md.py` the identifier is the empty string
when both uuid attributes are absent or empty, while in
`xml_to_appian_recordtype_md.py` it is Python `None` exactly when the
unnamespaced attribute is absent and the namespaced one is absent or empty
(in particular when both are absent), and a string — possibly empty — as
soon as the unnamespaced attribute is present. -/
theorem c4_amended (root rt : XElem) (h : findChild root "recordType" = some rt) :
    (∀ e, V1.parse_recordtype root ≠ .error e) ∧
    (∀ p e, V2.parse_recordtype p root ≠ .error e) ∧
    (∀ r, V1.parse_recordtype root = .ok r →
      r.uuid = pyOrOpt (attrGet rt (nsTag "uuid")) (attrGet rt "uuid") ∧
      r.name = pyOrEmpty (attrGet rt "name") ∧
      (∀ v, v ≠ "" → attrGet rt (nsTag "uuid") = some v → r.uuid = some v) ∧
      ((attrGet rt (nsTag "uuid") = none ∨ attrGet rt (nsTag "uuid") = some "") →
        r.uuid = attrGet rt "uuid") ∧
      (r.uuid = none ↔
        (attrGet rt "uuid" = none ∧
          (attrGet rt (nsTag "uuid") = none ∨ attrGet rt (nsTag "uuid") = some ""))) ∧
      (attrGet rt "name" = none → r.name = "")) ∧
    (∀ p r, V2.parse_recordtype p root = .ok r →
      r.uuid = some (pyOrEmpty (pyOrOpt (attrGet rt (nsTag "uuid")) (attrGet rt "uuid"))) ∧
      (∀ v, v ≠ "" → attrGet rt (nsTag "uuid") = some v → r.uuid = some v) ∧
      ((attrGet rt (nsTag "uuid") = none ∨ attrGet rt (nsTag "uuid") = some "") →
        r.uuid = some (pyOrEmpty (attrGet rt "uuid"))) ∧
      ((attrGet rt (nsTag "uuid") = none ∨ attrGet rt (nsTag "uuid") = some "") →
        (attrGet rt "uuid" = none ∨ attrGet rt "uuid" = some "") →
        r.uuid = some "") ∧
      (attrGet rt "name" = none → r.name = "")) := by
  refine ⟨?_, ?_, ?_, ?_⟩
  · intro e he
    rw [V1.parse_recordtype, h] at he
    exact Except.noConfusion he
  · intro p e he
    rw [V2.parse_recordtype, h] at he
    exact Except.noConfusion he
  · intro r hr
    rw [V1.parse_recordtype, h, Except.ok.injEq] at hr
    subst hr
    refine ⟨rfl, rfl, ?_, ?_, ?_, ?_⟩
    · intro v hv ha
      simp [pyOrOpt, truthy, ha, hv]
    · intro ha
      have hf : truthy (attrGet rt (nsTag "uuid")) = false :=
        (truthy_eq_false_iff _).mpr ha
      simp [pyOrOpt, hf]
    · constructor
      · intro hn
        by_cases ht : truthy (attrGet rt (nsTag "uuid")) = true
        · exfalso
          have hn2 : attrGet rt (nsTag "uuid") = none := by
            simpa [pyOrOpt, ht] using hn
          rw [hn2] at ht
          exact Bool.noConfusion ht
        · have hf : truthy (attrGet rt (nsTag "uuid")) = false := by
            simpa using ht
          have hn2 : attrGet rt "uuid" = none := by
            simpa [pyOrOpt, hf] using hn
          exact ⟨hn2, (truthy_eq_false_iff _).mp hf⟩
      · rintro ⟨hb, ha⟩
        have hf : truthy (attrGet rt (nsTag "uuid")) = false :=
          (truthy_eq_false_iff _).mpr ha
        simp [pyOrOpt, hf, hb]
    · intro ha
      simp [pyOrEmpty, truthy, ha]
  · intro p r hr
    rw [V2.parse_recordtype, h, Except.ok.injEq] at hr
    subst hr
    refine ⟨rfl, ?_, ?_, ?_, ?_⟩
    · intro v hv ha
      simp [pyOrOpt, pyOrEmpty, truthy, ha, hv]
    · intro ha
      have hf : truthy (attrGet rt (nsTag "uuid")) = false :=
        (truthy_eq_false_iff _).mpr ha
      simp [pyOrOpt, hf]
    · intro ha hb
      have hf : truthy (attrGet rt (nsTag "uuid")) = false :=
        (truthy_eq_false_iff _).mpr ha
      have hg : truthy (attrGet rt "uuid") = false :=
        (truthy_eq_false_iff _).mpr hb
      simp [pyOrOpt, pyOrEmpty, hf, hg]
    · intro ha
      simp [pyOrEmpty, truthy, ha]

/-- Claim C4 witness: with both uuid attributes absent the first script's
identifier is `None` and the second's is the empty string; with both
attributes present but empty the first script's identifier is the empty
string, not `None`. -/
theorem c4_amended_witness :
    (∀ e, V1.parse_recordtype c4doc ≠ .error e) ∧ c4rec.uuid = none ∧
    (∀ r, V2.parse_recordtype "p" c4doc = .ok r → r.uuid = some "") ∧
    c4recE.uuid = some "" := by
  refine ⟨(c4_amended c4doc c4rt rfl).1, ?_, ?_, ?_⟩
  · exact (((c4_amended c4doc c4rt rfl).2.2.1 c4rec rfl).2.2.2.2.1).mpr
      ⟨rfl, Or.inl rfl⟩
  · intro r hr
    exact ((c4_amended c4doc c4rt rfl).2.2.2 "p" r hr).2.2.2.1
      (Or.inl rfl) (Or.inl rfl)
  · exact (((c4_amended c4docE c4rtE rfl).2.2.1 c4recE rfl).2.2.2.1
      (Or.inr rfl)).trans rfl

/-- Claim C5: a field or relationship element is retained iff its stripped
display name and stripped identifier are both non-empty, an action element
iff its identifier and stripped reference key are both non-empty; dropped
elements are silently skipped, so each retained list is a `filterMap` of the
matching elements and its length never exceeds theirs; the second script
extracts the identical lists. -/
theorem c5_retention (root rt : XElem) (r : RecordTypeRec)
    (h : findChild root "recordType" = some rt)
    (hp : V1.parse_recordtype root = .ok r) :
    r.fields = (fieldElems rt).filterMap mkField ∧
    r.relationships = (relElems rt).filterMap mkRel ∧
    r.actions = (actionElems rt).filterMap mkAction ∧
    r.fields.length ≤ (fieldElems rt).length ∧
    r.relationships.length ≤ (relElems rt).length ∧
    r.actions.length ≤ (actionElems rt).length ∧
    (∀ f, (mkField f).isSome = true ↔
      (pyStripWs (findtextD f "fieldName" "") ≠ "" ∧
       pyStripWs (findtextD f "uuid" "") ≠ "")) ∧
    (∀ rc, (mkRel rc).isSome = true ↔
      (pyStripWs (findtextD rc "uuid" "") ≠ "" ∧
       pyStripWs (findtextD rc "relationshipName" "") ≠ "")) ∧
    (∀ ac, (mkAction ac).isSome = true ↔
      (pyOrEmpty (attrGet ac (nsTag "uuid")) ≠ "" ∧
       pyStripWs (findtextD ac (nsTag "referenceKey") "") ≠ "")) ∧
    (∀ p r2, V2.parse_recordtype p root = .ok r2 →
      r2.fields = r.fields ∧ r2.relationships = r.relationships ∧
      r2.actions = r.actions) := by
  rw [V1.parse_recordtype, h, Except.ok.injEq] at hp
  subst hp
  refine ⟨rfl, rfl, rfl, List.length_filterMap_le _ _, List.length_filterMap_le _ _,
    List.length_filterMap_le _ _, mkField_isSome, mkRel_isSome, mkAction_isSome, ?_⟩
  intro p r2 hr2
  rw [V2.parse_recordtype, h, Except.ok.injEq] at hr2
  subst hr2
  exact ⟨rfl, rfl, rfl⟩

/-- Claim C5 witness: in a document with two field elements (one lacking its
uuid), one relationship lacking its name and one complete action, the
retained counts stay below the element counts. -/
theorem c5_retention_witness :
    c5rec.fields.length ≤ (fieldElems c5rt).length ∧
    c5rec.relationships.length ≤ (relElems c5rt).length ∧
    c5rec.actions.length ≤ (actionElems c5rt).length :=
  ⟨(c5_retention c5doc c5rt c5rec rfl rfl).2.2.2.1,
   (c5_retention c5doc c5rt c5rec rfl rfl).2.2.2.2.1,
   (c5_retention c5doc c5rt c5rec rfl rfl).2.2.2.2.2.1⟩

/-- Claim C6: a retained action is named by the stripped first title when
that stripped text is non-empty, by the stripped second title only when the
first is absent or empty, and by the reference key when no usable title text
remains; with both titles empty the name is the reference key. -/
theorem c6_action_display_name (ac : XElem) (a : RTAction)
    (h : mkAction ac = some a) :
    a.name = specActionDisplayName (findtextD ac (nsTag "staticTitle") "")
      (findtextD ac (nsTag "staticTitleString") "") a.key ∧
    a.key = pyStripWs (findtextD ac (nsTag "referenceKey") "") ∧
    (pyStripWs (findtextD ac (nsTag "staticTitle") "") = "" →
     pyStripWs (findtextD ac (nsTag "staticTitleString") "") = "" →
     a.name = a.key) := by
  obtain ⟨hk, hu, hn⟩ := mkAction_spec ac a h
  refine ⟨hn, hk, ?_⟩
  intro h1 h2
  rw [hn]
  unfold specActionDisplayName
  rw [if_neg (by simp [h1])]
  by_cases ht : findtextD ac (nsTag "staticTitle") "" = ""
  · rw [if_pos ht, if_neg (by simp [h2])]
  · rw [if_neg ht]

/-- Claim C6 witness, scenario D of the spec: the action with empty title
and reference key `viewDetails` is named `viewDetails`. -/
theorem c6_witness : mkAction c6ac = some c6act ∧ c6act.name = "viewDetails" := by
  refine ⟨rfl, ?_⟩
  have h := (c6_action_display_name c6ac c6act rfl).2.2 rfl rfl
  exact h.trans rfl

/-- Claim C9: extraction fails iff the top-level `recordType` element is
absent (with the script-specific message), in both scripts; when it is
present, extraction succeeds, and a missing description element yields the
empty-string default. -/
theorem c9_error_iff (root : XElem) :
    (exceptIsOk (V1.parse_recordtype root) = false ↔
      findChild root "recordType" = none) ∧
    (∀ p, exceptIsOk (V2.parse_recordtype p root) = false ↔
      findChild root "recordType" = none) ∧
    (findChild root "recordType" = none →
      V1.parse_recordtype root =
        .error "No <recordType> found. Expected an Appian recordTypeHaul XML.") ∧
    (∀ rt r, findChild root "recordType" = some rt →
      V1.parse_recordtype root = .ok r →
      (findChild rt (nsTag "description") = none → r.description = "")) := by
  refine ⟨?_, ?_, ?_, ?_⟩
  · cases hf : findChild root "recordType" with
    | none =>
      rw [V1.parse_recordtype, hf]
      simp [exceptIsOk]
    | some rt =>
      rw [V1.parse_recordtype, hf]
      simp [exceptIsOk]
  · intro p
    cases hf : findChild root "recordType" with
    | none =>
      rw [V2.parse_recordtype, hf]
      simp [exceptIsOk]
    | some rt =>
      rw [V2.parse_recordtype, hf]
      simp [exceptIsOk]
  · intro hf
    rw [V1.parse_recordtype, hf]
  · intro rt r hf hr
    rw [V1.parse_recordtype, hf, Except.ok.injEq] at hr
    subst hr
    intro hd
    show extractDesc rt = ""
    unfold extractDesc
    rw [hd]

/-- Claim C9 witness: a present `recordType` element with no description
element parses successfully with the empty description. -/
theorem c9_witness : c9rec.description = "" :=
  (c9_error_iff c9doc).2.2.2 c9rt c9rec rfl rfl rfl

end AppianMd
